import Mathlib

/-!
Verification of the checked floating-point wrapper (`NoisyFloat`) from the
`noisy_float` repository, against its natural-language specification.

Shallow embedding notes.  The repository wraps native IEEE-754 floats.  We
embed the raw float domain as an idealized float type `Fl` that keeps every
special value the claims depend on (NaN, the two infinities, the two signed
zeros) and replaces rounded finite arithmetic by exact rational arithmetic.
The IEEE special-value propagation rules (NaN propagation, infinity
arithmetic, signed-zero results, division by zero) are modelled exactly.
Distinct constructors of `Fl` correspond to distinct bit patterns; in
particular `Fl.negZero` and `Fl.num 0` are distinct bit patterns that compare
numerically equal, exactly as `-0.0` and `+0.0` do.

The `NoisyFloat` struct itself and its three constructors live in the crate
root, which is not part of the sources provided; they are modelled from the
spec where indicated.  Everything else is translated from
`src/float_impl.rs` and `src/checkers.rs`.
-/

/-- Idealized raw IEEE-754 float: NaN, the two infinities, negative zero, and
finite numeric values (`num 0` is positive zero; `num q` for `q ≠ 0` is a
finite nonzero value, modelled exactly as a rational). -/
inductive Fl where
  | nan : Fl
  | posInf : Fl
  | negInf : Fl
  | negZero : Fl
  | num : Rat → Fl
deriving DecidableEq

/-- Extended numeric value of a non-NaN float: the codomain of the IEEE
comparison predicates (both zeros collapse to `fin 0`). -/
inductive FVal where
  | negInf : FVal
  | fin : Rat → FVal
  | posInf : FVal
deriving DecidableEq

/-- Strict less-than on extended numeric values. -/
def FVal.ltb : FVal → FVal → Bool
  | .negInf, .negInf => false
  | .negInf, _ => true
  | .fin _, .negInf => false
  | .fin a, .fin b => decide (a < b)
  | .fin _, .posInf => true
  | .posInf, _ => false

/-- Numeric value of a float: `none` for NaN (unordered), otherwise the
extended numeric value, collapsing `-0.0` and `+0.0` to the same number. -/
def Fl.val? : Fl → Option FVal
  | .nan => none
  | .posInf => some .posInf
  | .negInf => some .negInf
  | .negZero => some (.fin 0)
  | .num q => some (.fin q)

/-- IEEE numeric equality (`==` on raw floats): false whenever either side is
NaN, otherwise equality of numeric values (so `-0.0 == +0.0`). -/
def Fl.beq (a b : Fl) : Bool :=
  match a.val?, b.val? with
  | some x, some y => decide (x = y)
  | _, _ => false

/-- IEEE strict less-than (`<` on raw floats): false whenever either side is
NaN. -/
def Fl.blt (a b : Fl) : Bool :=
  match a.val?, b.val? with
  | some x, some y => FVal.ltb x y
  | _, _ => false

/-- Classification `is_nan`. -/
def Fl.isNan : Fl → Bool
  | .nan => true
  | _ => false

/-- Classification `is_infinite`. -/
def Fl.isInfinite : Fl → Bool
  | .posInf => true
  | .negInf => true
  | _ => false

/-- Classification `is_finite`. -/
def Fl.isFinite : Fl → Bool
  | .nan => false
  | .posInf => false
  | .negInf => false
  | _ => true

/-- Whether the float is one of the two zeros. -/
def Fl.isZero : Fl → Bool
  | .negZero => true
  | .num q => decide (q = 0)
  | _ => false

/-- IEEE sign bit (true = negative); NaN's sign is irrelevant here. -/
def Fl.signBit : Fl → Bool
  | .nan => false
  | .posInf => false
  | .negInf => true
  | .negZero => true
  | .num q => decide (q < 0)

/-- Rational magnitude-with-sign of a finite float (junk on NaN/infinity). -/
def Fl.toQ : Fl → Rat
  | .num q => q
  | _ => 0

/-- Zero of the given sign. -/
def Fl.mkZero (sign : Bool) : Fl :=
  if sign then .negZero else .num 0

/-- Infinity of the given sign. -/
def Fl.mkInf (sign : Bool) : Fl :=
  if sign then .negInf else .posInf

/-- IEEE negation: flips the sign, including on zeros. -/
def Fl.neg : Fl → Fl
  | .nan => .nan
  | .posInf => .negInf
  | .negInf => .posInf
  | .negZero => .num 0
  | .num q => if q = 0 then .negZero else .num (-q)

/-- IEEE addition (exact on finite values): NaN propagates, opposite
infinities give NaN, `-0.0 + -0.0 = -0.0`, and a zero result of adding
nonzero-summed values is `+0.0`. -/
def Fl.add : Fl → Fl → Fl
  | .nan, _ => .nan
  | _, .nan => .nan
  | .posInf, .negInf => .nan
  | .negInf, .posInf => .nan
  | .posInf, _ => .posInf
  | _, .posInf => .posInf
  | .negInf, _ => .negInf
  | _, .negInf => .negInf
  | .negZero, .negZero => .negZero
  | .negZero, .num q => .num q
  | .num q, .negZero => .num q
  | .num a, .num b => .num (a + b)

/-- IEEE subtraction: `a - b = a + (-b)`. -/
def Fl.sub (a b : Fl) : Fl :=
  a.add b.neg

/-- IEEE multiplication (exact on finite values): NaN propagates, infinity
times zero is NaN, otherwise signs combine by xor. -/
def Fl.mul (a b : Fl) : Fl :=
  if a.isNan || b.isNan then .nan
  else if a.isInfinite || b.isInfinite then
    if a.isZero || b.isZero then .nan
    else Fl.mkInf (xor a.signBit b.signBit)
  else
    let p := a.toQ * b.toQ
    if p = 0 then Fl.mkZero (xor a.signBit b.signBit) else .num p

/-- IEEE division (exact on finite values): NaN propagates, infinity over
infinity and zero over zero are NaN, finite nonzero over zero is a signed
infinity, finite over infinity is a signed zero. -/
def Fl.div (a b : Fl) : Fl :=
  if a.isNan || b.isNan then .nan
  else if a.isInfinite then
    if b.isInfinite then .nan else Fl.mkInf (xor a.signBit b.signBit)
  else if b.isInfinite then Fl.mkZero (xor a.signBit b.signBit)
  else if b.isZero then
    if a.isZero then .nan else Fl.mkInf (xor a.signBit b.signBit)
  else
    let q := a.toQ / b.toQ
    if q = 0 then Fl.mkZero (xor a.signBit b.signBit) else .num q

/-- Truncation of a rational toward zero. -/
def qtrunc (q : Rat) : Int :=
  if 0 ≤ q then Int.floor q else Int.ceil q

/-- IEEE remainder as Rust's `%` (fmod): NaN when either operand is NaN, the
dividend is infinite, or the divisor is zero; a finite dividend over an
infinite divisor is returned unchanged; otherwise
`x - trunc(x / y) * y`, with a zero result taking the dividend's sign. -/
def Fl.rem (a b : Fl) : Fl :=
  if a.isNan || b.isNan then .nan
  else if a.isInfinite || b.isZero then .nan
  else if b.isInfinite then a
  else
    let r := a.toQ - b.toQ * (qtrunc (a.toQ / b.toQ) : Rat)
    if r = 0 then Fl.mkZero a.signBit else .num r

/-- Validity policy (`FloatChecker`): a pure predicate over the raw float and
the diagnostic its `assert` raises when the predicate fails. -/
structure Checker where
  check : Fl → Bool
  message : String

/-- `NumChecker` from `src/checkers.rs`: valid unless NaN; diagnostic
"unexpected NaN". -/
def NumChecker : Checker :=
  { check := fun x => !x.isNan, message := "unexpected NaN" }

/-- `FiniteChecker` from `src/checkers.rs`: valid when finite; diagnostic
"unexpected NaN or infinity". -/
def FiniteChecker : Checker :=
  { check := fun x => x.isFinite, message := "unexpected NaN or infinity" }

/-- Modelled from the spec: the checked value type from the crate root (not
under `src/`) — a wrapper holding exactly one raw float, its governing policy
carried at the type level (here as a value index). -/
structure NoisyFloat (C : Checker) where
  value : Fl
deriving DecidableEq

/-- Modelled from the spec: raw-value extraction (`raw`), always available. -/
def NoisyFloat.raw {C : Checker} (a : NoisyFloat C) : Fl :=
  a.value

/-- Modelled from the spec: the checked-panicking constructor (`new`) from
the crate root — asserts the policy predicate (panicking with the policy's
diagnostic in verification builds, modelled as the error branch) and wraps
the raw value. -/
def NoisyFloat.new (C : Checker) (x : Fl) : Except String (NoisyFloat C) :=
  if C.check x then .ok ⟨x⟩ else .error C.message

/-- Modelled from the spec: the checked-fallible constructor (`try_new`)
from the crate root — returns the wrapped value exactly when the policy
predicate holds. -/
def NoisyFloat.tryNew (C : Checker) (x : Fl) : Option (NoisyFloat C) :=
  if C.check x then some ⟨x⟩ else none

/-- Modelled from the spec: the unchecked constructor
(`unchecked_new_generic`) from the crate root — wraps with no verification. -/
def NoisyFloat.uncheckedNewGeneric (C : Checker) (x : Fl) : NoisyFloat C :=
  ⟨x⟩

/-- `PartialEq` for `NoisyFloat` against a raw float (`src/float_impl.rs`,
lines 46-51): native numeric equality on the raw value. -/
def NoisyFloat.eqRaw {C : Checker} (a : NoisyFloat C) (other : Fl) : Bool :=
  Fl.beq a.value other

/-- `PartialEq` between two `NoisyFloat`s (`src/float_impl.rs`, lines 53-58):
delegates to the raw comparison. -/
def NoisyFloat.eqNoisy {C : Checker} (a other : NoisyFloat C) : Bool :=
  a.eqRaw other.value

/-- `Ord::cmp` for `NoisyFloat` (`src/float_impl.rs`, lines 108-119): Less if
the raw values compare less, Equal if they compare equal, Greater
otherwise. -/
def NoisyFloat.cmp {C : Checker} (a other : NoisyFloat C) : Ordering :=
  if Fl.blt a.value other.value then .lt
  else if Fl.beq a.value other.value then .eq
  else .gt

/-- `Hash` for `NoisyFloat` (`src/float_impl.rs`, lines 121-143): the bit
pattern fed to the hasher — the canonical zero bit pattern (that of `+0.0`,
i.e. the integer 0) when the raw value compares numerically equal to `0.0`,
otherwise the raw value's exact bit pattern.  The hasher itself is a
deterministic function of the bits fed to it, so equal `hashBits` means
equal hashes. -/
def NoisyFloat.hashBits {C : Checker} (a : NoisyFloat C) : Fl :=
  if Fl.beq a.value (.num 0) then .num 0 else a.value

/-- `Add<F>` for `NoisyFloat` (`src/float_impl.rs`, lines 179-184): native
addition on raw values, then the checked-panicking construction path. -/
def NoisyFloat.add {C : Checker} (a : NoisyFloat C) (rhs : Fl) :
    Except String (NoisyFloat C) :=
  NoisyFloat.new C (Fl.add a.value rhs)

/-- `Add<NoisyFloat>` for `NoisyFloat` (`src/float_impl.rs`, lines 185-190):
delegates to the raw-operand form. -/
def NoisyFloat.addNoisy {C : Checker} (a rhs : NoisyFloat C) :
    Except String (NoisyFloat C) :=
  a.add rhs.value

/-- `Sub<F>` for `NoisyFloat` (`src/float_impl.rs`, lines 192-197). -/
def NoisyFloat.sub {C : Checker} (a : NoisyFloat C) (rhs : Fl) :
    Except String (NoisyFloat C) :=
  NoisyFloat.new C (Fl.sub a.value rhs)

/-- `Sub<NoisyFloat>` for `NoisyFloat` (`src/float_impl.rs`, lines 198-203). -/
def NoisyFloat.subNoisy {C : Checker} (a rhs : NoisyFloat C) :
    Except String (NoisyFloat C) :=
  a.sub rhs.value

/-- `Mul<F>` for `NoisyFloat` (`src/float_impl.rs`, lines 205-210). -/
def NoisyFloat.mul {C : Checker} (a : NoisyFloat C) (rhs : Fl) :
    Except String (NoisyFloat C) :=
  NoisyFloat.new C (Fl.mul a.value rhs)

/-- `Mul<NoisyFloat>` for `NoisyFloat` (`src/float_impl.rs`, lines 211-216). -/
def NoisyFloat.mulNoisy {C : Checker} (a rhs : NoisyFloat C) :
    Except String (NoisyFloat C) :=
  a.mul rhs.value

/-- `Div<F>` for `NoisyFloat` (`src/float_impl.rs`, lines 218-223). -/
def NoisyFloat.div {C : Checker} (a : NoisyFloat C) (rhs : Fl) :
    Except String (NoisyFloat C) :=
  NoisyFloat.new C (Fl.div a.value rhs)

/-- `Div<NoisyFloat>` for `NoisyFloat` (`src/float_impl.rs`, lines 224-229). -/
def NoisyFloat.divNoisy {C : Checker} (a rhs : NoisyFloat C) :
    Except String (NoisyFloat C) :=
  a.div rhs.value

/-- `Rem<F>` for `NoisyFloat` (`src/float_impl.rs`, lines 231-236). -/
def NoisyFloat.rem {C : Checker} (a : NoisyFloat C) (rhs : Fl) :
    Except String (NoisyFloat C) :=
  NoisyFloat.new C (Fl.rem a.value rhs)

/-- `Rem<NoisyFloat>` for `NoisyFloat` (`src/float_impl.rs`, lines 237-242). -/
def NoisyFloat.remNoisy {C : Checker} (a rhs : NoisyFloat C) :
    Except String (NoisyFloat C) :=
  a.rem rhs.value

/-- `Add<NoisyFloat>` for the raw float type (`float_left_op_impls!` in
`src/float_impl.rs`, lines 259-264): native addition with the raw value on
the left, then the checked-panicking construction path. -/
def Fl.addNoisy {C : Checker} (self : Fl) (rhs : NoisyFloat C) :
    Except String (NoisyFloat C) :=
  NoisyFloat.new C (Fl.add self rhs.value)

/-- `Sub<NoisyFloat>` for the raw float type (`src/float_impl.rs`, lines
265-270). -/
def Fl.subNoisy {C : Checker} (self : Fl) (rhs : NoisyFloat C) :
    Except String (NoisyFloat C) :=
  NoisyFloat.new C (Fl.sub self rhs.value)

/-- `Mul<NoisyFloat>` for the raw float type (`src/float_impl.rs`, lines
271-276). -/
def Fl.mulNoisy {C : Checker} (self : Fl) (rhs : NoisyFloat C) :
    Except String (NoisyFloat C) :=
  NoisyFloat.new C (Fl.mul self rhs.value)

/-- `Div<NoisyFloat>` for the raw float type (`src/float_impl.rs`, lines
277-282). -/
def Fl.divNoisy {C : Checker} (self : Fl) (rhs : NoisyFloat C) :
    Except String (NoisyFloat C) :=
  NoisyFloat.new C (Fl.div self rhs.value)

/-- `Rem<NoisyFloat>` for the raw float type (`src/float_impl.rs`, lines
283-288). -/
def Fl.remNoisy {C : Checker} (self : Fl) (rhs : NoisyFloat C) :
    Except String (NoisyFloat C) :=
  NoisyFloat.new C (Fl.rem self rhs.value)

/-- `Neg` for `NoisyFloat` (`src/float_impl.rs`, lines 464-471): native
negation of the raw value, then the checked-panicking construction path. -/
def NoisyFloat.negOp {C : Checker} (a : NoisyFloat C) :
    Except String (NoisyFloat C) :=
  NoisyFloat.new C (Fl.neg a.value)

/-- `Float::nan` for `NoisyFloat` (`src/float_impl.rs`, lines 684-689):
panics unconditionally with the diagnostic "unexpected NaN"; never returns a
value. -/
def NoisyFloat.nanCtor (C : Checker) : Except String (NoisyFloat C) :=
  .error "unexpected NaN"

/-- Widening `From<NoisyFloat<F, FiniteChecker>> for NoisyFloat<F,
NumChecker>` (`src/checkers.rs`, lines 60-65): rewraps the raw value through
the unchecked constructor; total, never fails. -/
def NoisyFloat.widen (v : NoisyFloat FiniteChecker) : NoisyFloat NumChecker :=
  NoisyFloat.uncheckedNewGeneric NumChecker v.raw

/-- Narrowing `TryFrom<NoisyFloat<F, NumChecker>> for NoisyFloat<F,
FiniteChecker>` (`src/checkers.rs`, lines 67-73): the fallible constructor on
the raw value, with error "illegal value" when it rejects. -/
def NoisyFloat.narrow (f : NoisyFloat NumChecker) :
    Except String (NoisyFloat FiniteChecker) :=
  match NoisyFloat.tryNew FiniteChecker f.value with
  | some v => .ok v
  | none => .error "illegal value"

/-- Raw fold underlying `iter::Sum` (`src/float_impl.rs`, lines 1081-1089):
the native-float left fold of the raw values starting from raw zero. -/
def rawSum {C : Checker} (l : List (NoisyFloat C)) : Fl :=
  (l.map NoisyFloat.raw).foldl Fl.add (.num 0)

/-- `iter::Sum` for `NoisyFloat` (`src/float_impl.rs`, lines 1081-1089): the
raw fold run once through the checked-panicking construction path. -/
def NoisyFloat.sumIter {C : Checker} (l : List (NoisyFloat C)) :
    Except String (NoisyFloat C) :=
  NoisyFloat.new C (rawSum l)

/-- Raw fold underlying `iter::Product` (`src/float_impl.rs`, lines
1101-1109): the native-float left fold of the raw values starting from raw
one. -/
def rawProduct {C : Checker} (l : List (NoisyFloat C)) : Fl :=
  (l.map NoisyFloat.raw).foldl Fl.mul (.num 1)

/-- `iter::Product` for `NoisyFloat` (`src/float_impl.rs`, lines 1101-1109):
the raw fold run once through the checked-panicking construction path. -/
def NoisyFloat.productIter {C : Checker} (l : List (NoisyFloat C)) :
    Except String (NoisyFloat C) :=
  NoisyFloat.new C (rawProduct l)

theorem FVal.ltb_irrefl (x : FVal) : FVal.ltb x x = false := by
  cases x <;> simp [FVal.ltb]

theorem FVal.ne_of_ltb {x y : FVal} (h : FVal.ltb x y = true) : x ≠ y := by
  intro he
  subst he
  simp [FVal.ltb_irrefl] at h

theorem FVal.ltb_asymm {x y : FVal} (h : FVal.ltb x y = true) :
    FVal.ltb y x = false := by
  cases x <;> cases y <;> simp_all [FVal.ltb]
  linarith

theorem FVal.eq_of_not_ltb {x y : FVal} (h1 : FVal.ltb x y = false)
    (h2 : FVal.ltb y x = false) : x = y := by
  cases x <;> cases y <;> simp_all [FVal.ltb]
  linarith

theorem FVal.ltb_trans {x y z : FVal} (h1 : FVal.ltb x y = true)
    (h2 : FVal.ltb y z = true) : FVal.ltb x z = true := by
  cases x <;> cases y <;> cases z <;> simp_all [FVal.ltb]
  linarith

theorem Fl.val?_some {x : Fl} (h : x.isNan = false) :
    ∃ v, x.val? = some v := by
  cases x <;> simp_all [Fl.isNan, Fl.val?]

/-- C6: `NumChecker::check` returns true exactly on non-NaN raw floats and
`FiniteChecker::check` returns true exactly on finite raw floats (rejecting
NaN and both infinities); both are pure functions of the raw value. -/
theorem C6_checker_predicates (x : Fl) :
    (NumChecker.check x = true ↔ x.isNan = false) ∧
    (FiniteChecker.check x = true ↔ x.isFinite = true) ∧
    (FiniteChecker.check x = true ↔
      (x.isNan = false ∧ x.isInfinite = false)) ∧
    (NumChecker.check Fl.posInf = true ∧ NumChecker.check Fl.negInf = true ∧
     NumChecker.check Fl.negZero = true ∧ NumChecker.check (Fl.num 0) = true ∧
     NumChecker.check Fl.nan = false) ∧
    (FiniteChecker.check Fl.posInf = false ∧
     FiniteChecker.check Fl.negInf = false ∧
     FiniteChecker.check Fl.nan = false ∧
     FiniteChecker.check Fl.negZero = true ∧
     FiniteChecker.check (Fl.num 0) = true) := by
  cases x <;>
    simp [NumChecker, FiniteChecker, Fl.isNan, Fl.isFinite, Fl.isInfinite]

/-- C9: the canonical NaN constructor on the checked type, under a policy
that disallows NaN, fails loudly with the diagnostic "unexpected NaN" and
never returns a value. -/
theorem C9_nan_ctor_panics (C : Checker) (hC : C.check Fl.nan = false) :
    NoisyFloat.nanCtor C = .error "unexpected NaN" ∧
    ∀ v : NoisyFloat C, NoisyFloat.nanCtor C ≠ .ok v := by
  refine ⟨rfl, ?_⟩
  intro v h
  simp [NoisyFloat.nanCtor] at h

/-- Witness for C9 at the concrete policy `NumChecker`. -/
theorem C9_nan_ctor_panics_witness :
    NumChecker.check Fl.nan = false ∧
    (NoisyFloat.nanCtor NumChecker = .error "unexpected NaN" ∧
     ∀ v : NoisyFloat NumChecker, NoisyFloat.nanCtor NumChecker ≠ .ok v) :=
  ⟨by simp [NumChecker, Fl.isNan], C9_nan_ctor_panics NumChecker (by simp [NumChecker, Fl.isNan])⟩

/-- C8: for every raw float that `FiniteChecker` accepts, the
checked-panicking constructor succeeds, and widening the resulting
Finite-checked value to a Num-checked value (a total function, so it never
fails) yields a value whose raw extraction is exactly the original raw
float. -/
theorem C8_widen_roundtrip (x : Fl) (hx : FiniteChecker.check x = true) :
    NoisyFloat.new FiniteChecker x = .ok ⟨x⟩ ∧
    ∀ v : NoisyFloat FiniteChecker, NoisyFloat.new FiniteChecker x = .ok v →
      (NoisyFloat.widen v).raw = x := by
  constructor
  · simp [NoisyFloat.new, hx]
  · intro v hv
    simp [NoisyFloat.new, hx] at hv
    simp [NoisyFloat.widen, NoisyFloat.uncheckedNewGeneric, NoisyFloat.raw,
      ← hv]

/-- Witness for C8 at the concrete raw float `2`. -/
theorem C8_widen_roundtrip_witness :
    FiniteChecker.check (Fl.num 2) = true ∧
    (NoisyFloat.new FiniteChecker (Fl.num 2) = .ok ⟨Fl.num 2⟩ ∧
     ∀ v : NoisyFloat FiniteChecker,
       NoisyFloat.new FiniteChecker (Fl.num 2) = .ok v →
         (NoisyFloat.widen v).raw = Fl.num 2) :=
  ⟨by simp [FiniteChecker, Fl.isFinite],
   C8_widen_roundtrip (Fl.num 2) (by simp [FiniteChecker, Fl.isFinite])⟩

/-- C7: for a Num-checked value from a safe construction path (raw value
accepted by `NumChecker`, hence not NaN), narrowing to the Finite-checked
type succeeds exactly when the raw value is not infinite, and errors exactly
when the raw value is one of the two infinities. -/
theorem C7_narrow (f : NoisyFloat NumChecker)
    (hf : NumChecker.check f.value = true) :
    ((∃ v, NoisyFloat.narrow f = .ok v) ↔ f.value.isInfinite = false) ∧
    (NoisyFloat.narrow f = .error "illegal value" ↔
      (f.value = Fl.posInf ∨ f.value = Fl.negInf)) := by
  cases f with
  | mk x =>
    cases x <;>
      simp_all [NoisyFloat.narrow, NoisyFloat.tryNew, FiniteChecker,
        NumChecker, Fl.isFinite, Fl.isInfinite, Fl.isNan]

/-- Witness for C7 at the concrete value wrapping raw `5`. -/
theorem C7_narrow_witness :
    NumChecker.check (NoisyFloat.mk (C := NumChecker) (Fl.num 5)).value
        = true ∧
    (((∃ v, NoisyFloat.narrow ⟨Fl.num 5⟩ = .ok v) ↔
        (Fl.num 5).isInfinite = false) ∧
     (NoisyFloat.narrow ⟨Fl.num 5⟩ = .error "illegal value" ↔
        (Fl.num 5 = Fl.posInf ∨ Fl.num 5 = Fl.negInf))) :=
  ⟨by simp [NumChecker, Fl.isNan],
   C7_narrow ⟨Fl.num 5⟩ (by simp [NumChecker, Fl.isNan])⟩

/-- C4: for policy-valid checked values, equality is exactly IEEE numeric
equality of the raw values; in particular the value built from `+0.0` and the
value built from `-0.0` are equal, and `Ord::cmp` on them returns Equal in
both argument orders (not Less or Greater). -/
theorem C4_eq_is_numeric (C : Checker) (a b : NoisyFloat C)
    (ha : C.check a.value = true) (hb : C.check b.value = true) :
    (NoisyFloat.eqNoisy a b = Fl.beq a.value b.value) ∧
    (NoisyFloat.eqNoisy (NoisyFloat.mk (C := C) (Fl.num 0)) ⟨Fl.negZero⟩
        = true) ∧
    (NoisyFloat.cmp (NoisyFloat.mk (C := C) (Fl.num 0)) ⟨Fl.negZero⟩
        = .eq) ∧
    (NoisyFloat.cmp (NoisyFloat.mk (C := C) Fl.negZero) ⟨Fl.num 0⟩
        = .eq) := by
  refine ⟨rfl, ?_, ?_, ?_⟩ <;>
    simp [NoisyFloat.eqNoisy, NoisyFloat.eqRaw, NoisyFloat.cmp, Fl.beq,
      Fl.blt, Fl.val?, FVal.ltb]

/-- Witness for C4 at concrete valid values under `NumChecker`. -/
theorem C4_eq_is_numeric_witness :
    NumChecker.check (NoisyFloat.mk (C := NumChecker) (Fl.num 1)).value
        = true ∧
    NumChecker.check (NoisyFloat.mk (C := NumChecker) (Fl.num 2)).value
        = true ∧
    ((NoisyFloat.eqNoisy (NoisyFloat.mk (C := NumChecker) (Fl.num 1))
        ⟨Fl.num 2⟩ = Fl.beq (Fl.num 1) (Fl.num 2)) ∧
     (NoisyFloat.eqNoisy (NoisyFloat.mk (C := NumChecker) (Fl.num 0))
        ⟨Fl.negZero⟩ = true) ∧
     (NoisyFloat.cmp (NoisyFloat.mk (C := NumChecker) (Fl.num 0))
        ⟨Fl.negZero⟩ = .eq) ∧
     (NoisyFloat.cmp (NoisyFloat.mk (C := NumChecker) Fl.negZero)
        ⟨Fl.num 0⟩ = .eq)) :=
  ⟨by simp [NumChecker, Fl.isNan], by simp [NumChecker, Fl.isNan],
   C4_eq_is_numeric NumChecker ⟨Fl.num 1⟩ ⟨Fl.num 2⟩
     (by simp [NumChecker, Fl.isNan]) (by simp [NumChecker, Fl.isNan])⟩

/-- C5: the bits fed to the hasher are the same for the value built from
`+0.0` and the value built from `-0.0` (both canonicalized to the zero bit
pattern); every value that is not numerically zero feeds its exact raw bit
pattern; and equality implies equal hash bits for all valid values. -/
theorem C5_hash_contract (C : Checker) (a b : NoisyFloat C)
    (ha : C.check a.value = true) (hb : C.check b.value = true) :
    (NoisyFloat.hashBits (NoisyFloat.mk (C := C) (Fl.num 0)) =
      NoisyFloat.hashBits (NoisyFloat.mk (C := C) Fl.negZero)) ∧
    (a.value.isZero = false → NoisyFloat.hashBits a = a.value) ∧
    (NoisyFloat.eqNoisy a b = true →
      NoisyFloat.hashBits a = NoisyFloat.hashBits b) := by
  refine ⟨?_, ?_, ?_⟩
  · simp [NoisyFloat.hashBits, Fl.beq, Fl.val?]
  · intro hz
    cases ha2 : a.value <;>
      simp_all [NoisyFloat.hashBits, Fl.beq, Fl.val?, Fl.isZero]
  · intro he
    cases a with
    | mk x =>
      cases b with
      | mk y =>
        cases x <;> cases y <;>
          simp_all [NoisyFloat.eqNoisy, NoisyFloat.eqRaw, NoisyFloat.hashBits,
            Fl.beq, Fl.val?]

/-- Witness for C5 at concrete valid values under `FiniteChecker`. -/
theorem C5_hash_contract_witness :
    FiniteChecker.check
        (NoisyFloat.mk (C := FiniteChecker) Fl.negZero).value = true ∧
    FiniteChecker.check
        (NoisyFloat.mk (C := FiniteChecker) (Fl.num 0)).value = true ∧
    ((NoisyFloat.hashBits (NoisyFloat.mk (C := FiniteChecker) (Fl.num 0)) =
        NoisyFloat.hashBits (NoisyFloat.mk (C := FiniteChecker) Fl.negZero)) ∧
     ((NoisyFloat.mk (C := FiniteChecker) Fl.negZero).value.isZero = false →
        NoisyFloat.hashBits (NoisyFloat.mk (C := FiniteChecker) Fl.negZero) =
          Fl.negZero) ∧
     (NoisyFloat.eqNoisy (NoisyFloat.mk (C := FiniteChecker) Fl.negZero)
        ⟨Fl.num 0⟩ = true →
        NoisyFloat.hashBits (NoisyFloat.mk (C := FiniteChecker) Fl.negZero) =
          NoisyFloat.hashBits (NoisyFloat.mk (C := FiniteChecker)
            (Fl.num 0)))) :=
  ⟨by simp [FiniteChecker, Fl.isFinite], by simp [FiniteChecker, Fl.isFinite],
   C5_hash_contract FiniteChecker ⟨Fl.negZero⟩ ⟨Fl.num 0⟩
     (by simp [FiniteChecker, Fl.isFinite])
     (by simp [FiniteChecker, Fl.isFinite])⟩

theorem FiniteChecker_div_zero_invalid {x : Fl}
    (hx : FiniteChecker.check x = true) :
    FiniteChecker.check (Fl.div x (Fl.num 0)) = false := by
  cases x <;>
    simp_all [FiniteChecker, Fl.div, Fl.isNan, Fl.isInfinite, Fl.isZero,
      Fl.isFinite, Fl.mkInf, Fl.mkZero, Fl.signBit, Fl.toQ] <;>
    split_ifs <;> simp [Fl.isFinite]

/-- C3: dividing any Finite-checked value by raw `0.0` produces a non-finite
native result, so the checked-panicking construction path signals with the
diagnostic "unexpected NaN or infinity"; under `NumChecker`, the value built
from raw `5.0` divided by raw `0.0` succeeds and wraps positive infinity,
which `NumChecker::check` accepts. -/
theorem C3_div_by_zero (a : NoisyFloat FiniteChecker)
    (ha : FiniteChecker.check a.value = true) :
    NoisyFloat.div a (Fl.num 0) = .error "unexpected NaN or infinity" ∧
    NoisyFloat.new NumChecker (Fl.num 5) = .ok ⟨Fl.num 5⟩ ∧
    NoisyFloat.div (NoisyFloat.mk (C := NumChecker) (Fl.num 5)) (Fl.num 0)
        = .ok ⟨Fl.posInf⟩ ∧
    Fl.posInf.isInfinite = true ∧
    NumChecker.check Fl.posInf = true := by
  refine ⟨?_, ?_, ?_, rfl, rfl⟩
  · have h := FiniteChecker_div_zero_invalid ha
    simp only [NoisyFloat.div, NoisyFloat.new, h, Bool.false_eq_true,
      if_false]
    rfl
  · simp [NoisyFloat.new, NumChecker, Fl.isNan]
  · have h5 : Fl.div (Fl.num 5) (Fl.num 0) = Fl.posInf := by
      simp [Fl.div, Fl.isNan, Fl.isInfinite, Fl.isZero, Fl.signBit,
        Fl.mkInf]
    simp [NoisyFloat.div, NoisyFloat.new, h5, NumChecker, Fl.isNan]

/-- Witness for C3 at the concrete Finite-checked value wrapping raw `3`. -/
theorem C3_div_by_zero_witness :
    FiniteChecker.check (Fl.num 3) = true ∧
    (NoisyFloat.div (NoisyFloat.mk (C := FiniteChecker) (Fl.num 3))
        (Fl.num 0) = .error "unexpected NaN or infinity" ∧
     NoisyFloat.new NumChecker (Fl.num 5) = .ok ⟨Fl.num 5⟩ ∧
     NoisyFloat.div (NoisyFloat.mk (C := NumChecker) (Fl.num 5)) (Fl.num 0)
        = .ok ⟨Fl.posInf⟩ ∧
     Fl.posInf.isInfinite = true ∧
     NumChecker.check Fl.posInf = true) :=
  ⟨by simp [FiniteChecker, Fl.isFinite],
   C3_div_by_zero ⟨Fl.num 3⟩ (by simp [FiniteChecker, Fl.isFinite])⟩

/-- C1: for policy-valid operands, every arithmetic operator (+, −, ×, ÷,
remainder on the two wrapped/raw operand combinations in both orders, and
unary negation) is the native raw computation run through the
checked-panicking construction path, and whenever the native result
satisfies the policy predicate the operation succeeds with exactly that raw
result. -/
theorem C1_arith_propagation (C : Checker) (a b : NoisyFloat C)
    (ha : C.check a.value = true) (hb : C.check b.value = true) :
    (NoisyFloat.addNoisy a b = NoisyFloat.new C (Fl.add a.value b.value) ∧
     (C.check (Fl.add a.value b.value) = true →
       NoisyFloat.addNoisy a b = .ok ⟨Fl.add a.value b.value⟩ ∧
       NoisyFloat.add a b.value = .ok ⟨Fl.add a.value b.value⟩ ∧
       Fl.addNoisy a.value b = .ok ⟨Fl.add a.value b.value⟩)) ∧
    (NoisyFloat.subNoisy a b = NoisyFloat.new C (Fl.sub a.value b.value) ∧
     (C.check (Fl.sub a.value b.value) = true →
       NoisyFloat.subNoisy a b = .ok ⟨Fl.sub a.value b.value⟩ ∧
       NoisyFloat.sub a b.value = .ok ⟨Fl.sub a.value b.value⟩ ∧
       Fl.subNoisy a.value b = .ok ⟨Fl.sub a.value b.value⟩)) ∧
    (NoisyFloat.mulNoisy a b = NoisyFloat.new C (Fl.mul a.value b.value) ∧
     (C.check (Fl.mul a.value b.value) = true →
       NoisyFloat.mulNoisy a b = .ok ⟨Fl.mul a.value b.value⟩ ∧
       NoisyFloat.mul a b.value = .ok ⟨Fl.mul a.value b.value⟩ ∧
       Fl.mulNoisy a.value b = .ok ⟨Fl.mul a.value b.value⟩)) ∧
    (NoisyFloat.divNoisy a b = NoisyFloat.new C (Fl.div a.value b.value) ∧
     (C.check (Fl.div a.value b.value) = true →
       NoisyFloat.divNoisy a b = .ok ⟨Fl.div a.value b.value⟩ ∧
       NoisyFloat.div a b.value = .ok ⟨Fl.div a.value b.value⟩ ∧
       Fl.divNoisy a.value b = .ok ⟨Fl.div a.value b.value⟩)) ∧
    (NoisyFloat.remNoisy a b = NoisyFloat.new C (Fl.rem a.value b.value) ∧
     (C.check (Fl.rem a.value b.value) = true →
       NoisyFloat.remNoisy a b = .ok ⟨Fl.rem a.value b.value⟩ ∧
       NoisyFloat.rem a b.value = .ok ⟨Fl.rem a.value b.value⟩ ∧
       Fl.remNoisy a.value b = .ok ⟨Fl.rem a.value b.value⟩)) ∧
    (NoisyFloat.negOp a = NoisyFloat.new C (Fl.neg a.value) ∧
     (C.check (Fl.neg a.value) = true →
       NoisyFloat.negOp a = .ok ⟨Fl.neg a.value⟩)) := by
  refine ⟨⟨rfl, fun h => ?_⟩, ⟨rfl, fun h => ?_⟩, ⟨rfl, fun h => ?_⟩,
    ⟨rfl, fun h => ?_⟩, ⟨rfl, fun h => ?_⟩, ⟨rfl, fun h => ?_⟩⟩ <;>
    simp_all [NoisyFloat.addNoisy, NoisyFloat.add, Fl.addNoisy,
      NoisyFloat.subNoisy, NoisyFloat.sub, Fl.subNoisy,
      NoisyFloat.mulNoisy, NoisyFloat.mul, Fl.mulNoisy,
      NoisyFloat.divNoisy, NoisyFloat.div, Fl.divNoisy,
      NoisyFloat.remNoisy, NoisyFloat.rem, Fl.remNoisy,
      NoisyFloat.negOp, NoisyFloat.new]

/-- Witness for C1 at the concrete Finite-checked values wrapping raw `1`
and raw `2`. -/
theorem C1_arith_propagation_witness :
    FiniteChecker.check (Fl.num 1) = true ∧
    FiniteChecker.check (Fl.num 2) = true ∧
    ((NoisyFloat.addNoisy (NoisyFloat.mk (C := FiniteChecker) (Fl.num 1))
        ⟨Fl.num 2⟩ = NoisyFloat.new FiniteChecker
          (Fl.add (Fl.num 1) (Fl.num 2)) ∧
      (FiniteChecker.check (Fl.add (Fl.num 1) (Fl.num 2)) = true →
        NoisyFloat.addNoisy (NoisyFloat.mk (C := FiniteChecker) (Fl.num 1))
          ⟨Fl.num 2⟩ = .ok ⟨Fl.add (Fl.num 1) (Fl.num 2)⟩ ∧
        NoisyFloat.add (NoisyFloat.mk (C := FiniteChecker) (Fl.num 1))
          (Fl.num 2) = .ok ⟨Fl.add (Fl.num 1) (Fl.num 2)⟩ ∧
        Fl.addNoisy (Fl.num 1)
          (NoisyFloat.mk (C := FiniteChecker) (Fl.num 2))
          = .ok ⟨Fl.add (Fl.num 1) (Fl.num 2)⟩)) ∧
     (NoisyFloat.subNoisy (NoisyFloat.mk (C := FiniteChecker) (Fl.num 1))
        ⟨Fl.num 2⟩ = NoisyFloat.new FiniteChecker
          (Fl.sub (Fl.num 1) (Fl.num 2)) ∧
      (FiniteChecker.check (Fl.sub (Fl.num 1) (Fl.num 2)) = true →
        NoisyFloat.subNoisy (NoisyFloat.mk (C := FiniteChecker) (Fl.num 1))
          ⟨Fl.num 2⟩ = .ok ⟨Fl.sub (Fl.num 1) (Fl.num 2)⟩ ∧
        NoisyFloat.sub (NoisyFloat.mk (C := FiniteChecker) (Fl.num 1))
          (Fl.num 2) = .ok ⟨Fl.sub (Fl.num 1) (Fl.num 2)⟩ ∧
        Fl.subNoisy (Fl.num 1)
          (NoisyFloat.mk (C := FiniteChecker) (Fl.num 2))
          = .ok ⟨Fl.sub (Fl.num 1) (Fl.num 2)⟩)) ∧
     (NoisyFloat.mulNoisy (NoisyFloat.mk (C := FiniteChecker) (Fl.num 1))
        ⟨Fl.num 2⟩ = NoisyFloat.new FiniteChecker
          (Fl.mul (Fl.num 1) (Fl.num 2)) ∧
      (FiniteChecker.check (Fl.mul (Fl.num 1) (Fl.num 2)) = true →
        NoisyFloat.mulNoisy (NoisyFloat.mk (C := FiniteChecker) (Fl.num 1))
          ⟨Fl.num 2⟩ = .ok ⟨Fl.mul (Fl.num 1) (Fl.num 2)⟩ ∧
        NoisyFloat.mul (NoisyFloat.mk (C := FiniteChecker) (Fl.num 1))
          (Fl.num 2) = .ok ⟨Fl.mul (Fl.num 1) (Fl.num 2)⟩ ∧
        Fl.mulNoisy (Fl.num 1)
          (NoisyFloat.mk (C := FiniteChecker) (Fl.num 2))
          = .ok ⟨Fl.mul (Fl.num 1) (Fl.num 2)⟩)) ∧
     (NoisyFloat.divNoisy (NoisyFloat.mk (C := FiniteChecker) (Fl.num 1))
        ⟨Fl.num 2⟩ = NoisyFloat.new FiniteChecker
          (Fl.div (Fl.num 1) (Fl.num 2)) ∧
      (FiniteChecker.check (Fl.div (Fl.num 1) (Fl.num 2)) = true →
        NoisyFloat.divNoisy (NoisyFloat.mk (C := FiniteChecker) (Fl.num 1))
          ⟨Fl.num 2⟩ = .ok ⟨Fl.div (Fl.num 1) (Fl.num 2)⟩ ∧
        NoisyFloat.div (NoisyFloat.mk (C := FiniteChecker) (Fl.num 1))
          (Fl.num 2) = .ok ⟨Fl.div (Fl.num 1) (Fl.num 2)⟩ ∧
        Fl.divNoisy (Fl.num 1)
          (NoisyFloat.mk (C := FiniteChecker) (Fl.num 2))
          = .ok ⟨Fl.div (Fl.num 1) (Fl.num 2)⟩)) ∧
     (NoisyFloat.remNoisy (NoisyFloat.mk (C := FiniteChecker) (Fl.num 1))
        ⟨Fl.num 2⟩ = NoisyFloat.new FiniteChecker
          (Fl.rem (Fl.num 1) (Fl.num 2)) ∧
      (FiniteChecker.check (Fl.rem (Fl.num 1) (Fl.num 2)) = true →
        NoisyFloat.remNoisy (NoisyFloat.mk (C := FiniteChecker) (Fl.num 1))
          ⟨Fl.num 2⟩ = .ok ⟨Fl.rem (Fl.num 1) (Fl.num 2)⟩ ∧
        NoisyFloat.rem (NoisyFloat.mk (C := FiniteChecker) (Fl.num 1))
          (Fl.num 2) = .ok ⟨Fl.rem (Fl.num 1) (Fl.num 2)⟩ ∧
        Fl.remNoisy (Fl.num 1)
          (NoisyFloat.mk (C := FiniteChecker) (Fl.num 2))
          = .ok ⟨Fl.rem (Fl.num 1) (Fl.num 2)⟩)) ∧
     (NoisyFloat.negOp (NoisyFloat.mk (C := FiniteChecker) (Fl.num 1))
        = NoisyFloat.new FiniteChecker (Fl.neg (Fl.num 1)) ∧
      (FiniteChecker.check (Fl.neg (Fl.num 1)) = true →
        NoisyFloat.negOp (NoisyFloat.mk (C := FiniteChecker) (Fl.num 1))
          = .ok ⟨Fl.neg (Fl.num 1)⟩))) :=
  ⟨by simp [FiniteChecker, Fl.isFinite], by simp [FiniteChecker, Fl.isFinite],
   C1_arith_propagation FiniteChecker ⟨Fl.num 1⟩ ⟨Fl.num 2⟩
     (by simp [FiniteChecker, Fl.isFinite])
     (by simp [FiniteChecker, Fl.isFinite])⟩

theorem FVal.trichotomy (x y : FVal) :
    (FVal.ltb x y = true ∧ x ≠ y ∧ FVal.ltb y x = false) ∨
    (FVal.ltb x y = false ∧ x = y ∧ FVal.ltb y x = false) ∨
    (FVal.ltb x y = false ∧ x ≠ y ∧ FVal.ltb y x = true) := by
  cases hxy : FVal.ltb x y
  · cases hyx : FVal.ltb y x
    · exact Or.inr (Or.inl ⟨rfl, FVal.eq_of_not_ltb hxy hyx, rfl⟩)
    · refine Or.inr (Or.inr ⟨rfl, ?_, rfl⟩)
      intro he
      subst he
      simp [FVal.ltb_irrefl] at hyx
  · exact Or.inl ⟨rfl, FVal.ne_of_ltb hxy, FVal.ltb_asymm hxy⟩

theorem NoisyFloat.cmp_spec {C : Checker} {a b : NoisyFloat C}
    {xa xb : FVal} (hxa : a.value.val? = some xa)
    (hxb : b.value.val? = some xb) :
    (NoisyFloat.cmp a b = .lt ↔ FVal.ltb xa xb = true) ∧
    (NoisyFloat.cmp a b = .eq ↔ xa = xb) ∧
    (NoisyFloat.cmp a b = .gt ↔
      (FVal.ltb xa xb = false ∧ xa ≠ xb)) := by
  rcases FVal.trichotomy xa xb with ⟨h1, h2, h3⟩ | ⟨h1, h2, h3⟩ |
      ⟨h1, h2, h3⟩ <;>
    simp [NoisyFloat.cmp, Fl.blt, Fl.beq, hxa, hxb, h1, h2,
      FVal.ltb_irrefl]

/-- C2: over policy-valid values (the policy excluding NaN), `Ord::cmp` is a
strict total order — reflexively Equal, antisymmetric (swapping arguments
swaps the ordering), transitive, and total — and returns Less exactly when
the raw values compare less, Equal exactly when they compare numerically
equal, and Greater otherwise. -/
theorem C2_total_order (C : Checker) (a b c : NoisyFloat C)
    (hC : ∀ x : Fl, C.check x = true → x.isNan = false)
    (ha : C.check a.value = true) (hb : C.check b.value = true)
    (hc : C.check c.value = true) :
    NoisyFloat.cmp a a = .eq ∧
    (NoisyFloat.cmp a b = .lt ↔ Fl.blt a.value b.value = true) ∧
    (NoisyFloat.cmp a b = .eq ↔ Fl.beq a.value b.value = true) ∧
    (NoisyFloat.cmp a b = .gt ↔
      (Fl.blt a.value b.value = false ∧ Fl.beq a.value b.value = false)) ∧
    NoisyFloat.cmp a b = (NoisyFloat.cmp b a).swap ∧
    (NoisyFloat.cmp a b = .lt → NoisyFloat.cmp b c = .lt →
      NoisyFloat.cmp a c = .lt) ∧
    (NoisyFloat.cmp a b = .lt ∨ NoisyFloat.cmp a b = .eq ∨
      NoisyFloat.cmp a b = .gt) := by
  obtain ⟨xa, hxa⟩ := Fl.val?_some (hC _ ha)
  obtain ⟨xb, hxb⟩ := Fl.val?_some (hC _ hb)
  obtain ⟨xc, hxc⟩ := Fl.val?_some (hC _ hc)
  obtain ⟨lab, eab, gab⟩ := NoisyFloat.cmp_spec hxa hxb
  obtain ⟨lba, eba, gba⟩ := NoisyFloat.cmp_spec hxb hxa
  obtain ⟨lbc, ebc, gbc⟩ := NoisyFloat.cmp_spec hxb hxc
  obtain ⟨lac, eac, gac⟩ := NoisyFloat.cmp_spec hxa hxc
  obtain ⟨laa, eaa, gaa⟩ := NoisyFloat.cmp_spec hxa hxa
  refine ⟨eaa.mpr rfl, ?_, ?_, ?_, ?_, ?_, ?_⟩
  · rw [lab]
    simp [Fl.blt, hxa, hxb]
  · rw [eab]
    simp [Fl.beq, hxa, hxb]
  · rw [gab]
    simp [Fl.blt, Fl.beq, hxa, hxb]
  · rcases FVal.trichotomy xa xb with ⟨h1, h2, h3⟩ | ⟨h1, h2, h3⟩ |
        ⟨h1, h2, h3⟩
    · rw [lab.mpr h1, gba.mpr ⟨h3, fun he => h2 he.symm⟩]
      rfl
    · rw [eab.mpr h2, eba.mpr h2.symm]
      rfl
    · rw [gab.mpr ⟨h1, h2⟩, lba.mpr h3]
      rfl
  · intro h1 h2
    exact lac.mpr (FVal.ltb_trans (lab.mp h1) (lbc.mp h2))
  · rcases FVal.trichotomy xa xb with ⟨h1, h2, h3⟩ | ⟨h1, h2, h3⟩ |
        ⟨h1, h2, h3⟩
    · exact Or.inl (lab.mpr h1)
    · exact Or.inr (Or.inl (eab.mpr h2))
    · exact Or.inr (Or.inr (gab.mpr ⟨h1, h2⟩))

/-- Witness for C2 at concrete `NumChecker`-valid values wrapping raw `1`,
`2` and `3`. -/
theorem C2_total_order_witness :
    (∀ x : Fl, NumChecker.check x = true → x.isNan = false) ∧
    NumChecker.check (Fl.num 1) = true ∧
    NumChecker.check (Fl.num 2) = true ∧
    NumChecker.check (Fl.num 3) = true ∧
    (NoisyFloat.cmp (NoisyFloat.mk (C := NumChecker) (Fl.num 1)) ⟨Fl.num 1⟩
        = .eq ∧
     (NoisyFloat.cmp (NoisyFloat.mk (C := NumChecker) (Fl.num 1)) ⟨Fl.num 2⟩
        = .lt ↔ Fl.blt (Fl.num 1) (Fl.num 2) = true) ∧
     (NoisyFloat.cmp (NoisyFloat.mk (C := NumChecker) (Fl.num 1)) ⟨Fl.num 2⟩
        = .eq ↔ Fl.beq (Fl.num 1) (Fl.num 2) = true) ∧
     (NoisyFloat.cmp (NoisyFloat.mk (C := NumChecker) (Fl.num 1)) ⟨Fl.num 2⟩
        = .gt ↔
       (Fl.blt (Fl.num 1) (Fl.num 2) = false ∧
        Fl.beq (Fl.num 1) (Fl.num 2) = false)) ∧
     NoisyFloat.cmp (NoisyFloat.mk (C := NumChecker) (Fl.num 1)) ⟨Fl.num 2⟩
        = (NoisyFloat.cmp (NoisyFloat.mk (C := NumChecker) (Fl.num 2))
            ⟨Fl.num 1⟩).swap ∧
     (NoisyFloat.cmp (NoisyFloat.mk (C := NumChecker) (Fl.num 1)) ⟨Fl.num 2⟩
        = .lt →
      NoisyFloat.cmp (NoisyFloat.mk (C := NumChecker) (Fl.num 2)) ⟨Fl.num 3⟩
        = .lt →
      NoisyFloat.cmp (NoisyFloat.mk (C := NumChecker) (Fl.num 1)) ⟨Fl.num 3⟩
        = .lt) ∧
     (NoisyFloat.cmp (NoisyFloat.mk (C := NumChecker) (Fl.num 1)) ⟨Fl.num 2⟩
        = .lt ∨
      NoisyFloat.cmp (NoisyFloat.mk (C := NumChecker) (Fl.num 1)) ⟨Fl.num 2⟩
        = .eq ∨
      NoisyFloat.cmp (NoisyFloat.mk (C := NumChecker) (Fl.num 1)) ⟨Fl.num 2⟩
        = .gt)) :=
  ⟨fun x hx => by cases x <;> simp_all [NumChecker, Fl.isNan],
   by simp [NumChecker, Fl.isNan], by simp [NumChecker, Fl.isNan],
   by simp [NumChecker, Fl.isNan],
   C2_total_order NumChecker ⟨Fl.num 1⟩ ⟨Fl.num 2⟩ ⟨Fl.num 3⟩
     (fun x hx => by cases x <;> simp_all [NumChecker, Fl.isNan])
     (by simp [NumChecker, Fl.isNan]) (by simp [NumChecker, Fl.isNan])
     (by simp [NumChecker, Fl.isNan])⟩

/-- C10: `iter::Sum` and `iter::Product` compute the left fold of the raw
values (from raw zero for Sum, raw one for Product) entirely on raw floats
and run the governing policy's validation exactly once, on the final
accumulated value: the outcome is determined solely by the policy predicate
on the final fold — succeeding with that raw value when it holds and
signalling the policy diagnostic when it does not — with no validation of
intermediate partial sums or products. -/
theorem C10_sum_product_fold (C : Checker) (l : List (NoisyFloat C)) :
    NoisyFloat.sumIter l = NoisyFloat.new C (rawSum l) ∧
    NoisyFloat.sumIter l =
      (if C.check (rawSum l) then .ok ⟨rawSum l⟩ else .error C.message) ∧
    NoisyFloat.productIter l = NoisyFloat.new C (rawProduct l) ∧
    NoisyFloat.productIter l =
      (if C.check (rawProduct l) then .ok ⟨rawProduct l⟩
       else .error C.message) := by
  exact ⟨rfl, rfl, rfl, rfl⟩
